import Mathlib

/-!
Shallow embedding of the spreadsheet-ingestion pipeline implemented in
src/services/FileProcessService.ts, together with theorems settling the
frozen claims about it.  The store (Prisma) is modelled as an explicit
record of run rows and product rows; the background body is modelled as
the sequence of store states it commits.
-/

namespace Ingest

/-- Run status enum (ProcessStatus in the Prisma client): IN_PROGRESS,
COMPLETED, FAILED. -/
inductive ProcessStatus
  | IN_PROGRESS
  | COMPLETED
  | FAILED
deriving Repr, DecidableEq

/-- A loosely-typed JavaScript cell value as produced by
XLSX.utils.sheet_to_json: either a string or a finite number (modelled as a
rational; spreadsheet cells never decode to NaN or Infinity). -/
inductive JsVal
  | str (s : String)
  | num (q : ℚ)
deriving Repr, DecidableEq

/-- JavaScript truthiness of an optional cell value: undefined, the empty
string and the number 0 are falsy, every other cell value is truthy. -/
def truthy : Option JsVal → Bool
  | none => false
  | some (.str s) => decide (s ≠ "")
  | some (.num q) => decide (q ≠ 0)

/-- JavaScript whitespace characters relevant to parseFloat/parseInt. -/
def jsWhitespace (c : Char) : Bool :=
  c = ' ' || c = '\t' || c = '\n' || c = '\r'

/-- Reads the longest leading run of decimal digits from a character list,
returning its value, the number of digits read, and the rest. -/
def digitsValAux (acc : ℕ) (n : ℕ) : List Char → ℕ × ℕ × List Char
  | [] => (acc, n, [])
  | c :: cs =>
    if c.isDigit then digitsValAux (10 * acc + (c.toNat - 48)) (n + 1) cs
    else (acc, n, c :: cs)

/-- Model of the JavaScript parseFloat builtin on the character list of a
string: skip leading whitespace, an optional sign, then the longest prefix
shaped digits [. digits] [e [sign] digits]; the result is that prefix's
value, or NaN (modelled as none) when no digit is found.  Literal
"Infinity" inputs are outside the modelled domain. -/
def parseFloatChars (cs : List Char) : Option ℚ :=
  let cs1 := cs.dropWhile jsWhitespace
  let sgn : ℤ × List Char :=
    match cs1 with
    | '-' :: t => (-1, t)
    | '+' :: t => (1, t)
    | t => (1, t)
  let ip := digitsValAux 0 0 sgn.2
  let fp : ℕ × ℕ × List Char :=
    match ip.2.2 with
    | '.' :: t => digitsValAux 0 0 t
    | t => (0, 0, t)
  if ip.2.1 = 0 ∧ fp.2.1 = 0 then none
  else
    let e : ℤ :=
      match fp.2.2 with
      | c :: t =>
        if c = 'e' ∨ c = 'E' then
          let es : ℤ × List Char :=
            match t with
            | '-' :: t2 => (-1, t2)
            | '+' :: t2 => (1, t2)
            | t2 => (1, t2)
          let ev := digitsValAux 0 0 es.2
          if ev.2.1 = 0 then 0 else es.1 * ev.1
        else 0
      | [] => 0
    let mantNum : ℤ := sgn.1 * ((ip.1 : ℤ) * (10 : ℤ) ^ fp.2.1 + (fp.1 : ℤ))
    if 0 ≤ e then some (mkRat (mantNum * (10 : ℤ) ^ e.toNat) ((10 : ℕ) ^ fp.2.1))
    else some (mkRat mantNum ((10 : ℕ) ^ fp.2.1 * (10 : ℕ) ^ (-e).toNat))

/-- parseFloat on a string. -/
def parseFloatStr (s : String) : Option ℚ :=
  parseFloatChars s.data

/-- Model of the JavaScript parseInt builtin with no radix argument on an
ordinary decimal string: skip leading whitespace, an optional sign, then the
longest prefix of decimal digits; NaN (none) when no digit is found.
Hexadecimal 0x prefixes are outside the modelled domain. -/
def parseIntChars (cs : List Char) : Option ℤ :=
  let cs1 := cs.dropWhile jsWhitespace
  let sgn : ℤ × List Char :=
    match cs1 with
    | '-' :: t => (-1, t)
    | '+' :: t => (1, t)
    | t => (1, t)
  let dv := digitsValAux 0 0 sgn.2
  if dv.2.1 = 0 then none else some (sgn.1 * dv.1)

/-- parseInt on a string. -/
def parseIntStr (s : String) : Option ℤ :=
  parseIntChars s.data

/-- JavaScript String() conversion of an optional cell value.  undefined
stringifies to "undefined"; a finite number stringifies to its decimal
numeral, modelled exactly for integral values (the only numeric values whose
string form matters in this development). -/
def jsToString : Option JsVal → String
  | none => "undefined"
  | some (.str s) => s
  | some (.num q) => if q.den = 1 then toString q.num else toString q

/-- Model of the JavaScript String.prototype.trim: strip leading and
trailing whitespace characters. -/
def jsTrim (s : String) : String :=
  ⟨((s.data.dropWhile jsWhitespace).reverse.dropWhile jsWhitespace).reverse⟩

/-- parseFloat(String(v)) for a cell value v: for a finite JS number the
round-trip is the identity; for a string it is parseFloat of the string;
NaN is none. -/
def jsParseFloat : Option JsVal → Option ℚ
  | some (.num q) => some q
  | v => parseFloatStr (jsToString v)

/-- parseInt(String(v)) for a cell value v: for a finite JS number this
truncates toward zero, rendered as Int.tdiv of the rational's numerator by
its denominator (values whose string form uses exponent notation are
outside the modelled domain); for a string it is parseInt of the string;
NaN is none. -/
def jsParseInt : Option JsVal → Option ℤ
  | some (.num q) => some (q.num.tdiv q.den)
  | v => parseIntStr (jsToString v)

/-- One decoded spreadsheet row (interface ExcelRow, lines 13-19): a
loosely-typed record whose cells may each be absent. -/
structure ExcelRow where
  name : Option JsVal := none
  category : Option JsVal := none
  price : Option JsVal := none
  stock : Option JsVal := none
  description : Option JsVal := none
deriving Repr, DecidableEq

/-- One persisted Product row.  price is the raw parseFloat result and stock
the raw parseInt result, so NaN values (none) are representable exactly as
the code can produce them. -/
structure Product where
  fileProcessId : String
  name : String
  category : String
  price : Option ℚ
  stock : Option ℤ
  description : Option String
deriving Repr, DecidableEq

/-- The row filter on line 94: row.name && row.category && row.price,
i.e. JS truthiness of the three cells. -/
def rowAccepted (r : ExcelRow) : Bool :=
  truthy r.name && truthy r.category && truthy r.price

/-- The row-to-product mapping on lines 95-102. -/
def toProduct (fileProcessId : String) (r : ExcelRow) : Product where
  fileProcessId := fileProcessId
  name := jsTrim (jsToString r.name)
  category := jsTrim (jsToString r.category)
  price := jsParseFloat r.price
  stock := if truthy r.stock then jsParseInt r.stock else some 0
  description :=
    if truthy r.description then some (jsTrim (jsToString r.description)) else none

/-- One persisted FileProcess (IngestionRun) row.  Field names follow the
Prisma model as used by the service; timestamps are abstract instants
(naturals).  totalRows is nullable until the body sets it. -/
structure FileProcess where
  id : String
  userId : String
  fileName : String
  fileUrl : String
  status : ProcessStatus
  totalRows : Option ℕ
  processedRows : ℕ
  errorMessage : Option String
  startedAt : ℕ
  completedAt : Option ℕ
deriving Repr, DecidableEq

/-- The backing record store: the fileProcess table and the product table. -/
structure DB where
  fileProcesses : List FileProcess
  products : List Product
deriving Repr, DecidableEq

/-- Errors thrown synchronously by the service (the throw sites on lines
184, 188 and 226). -/
inductive ServiceError
  | notFoundOrForbidden
  | invalidState
deriving Repr, DecidableEq

/-- prisma.fileProcess.findFirst where id and userId (the owner-scoped
lookup used by getById, retryProcessing and getProducts). -/
def findFileProcess (db : DB) (id userId : String) : Option FileProcess :=
  db.fileProcesses.find? (fun f => f.id == id && f.userId == userId)

/-- prisma.fileProcess.update where id, applying a field update to every
run row with this id (ids are unique in the real store, so at most one row
changes). -/
def updateFileProcess (db : DB) (id : String) (u : FileProcess → FileProcess) : DB :=
  { db with
    fileProcesses := db.fileProcesses.map (fun f => if f.id == id then u f else f) }

/-- Modelled from the spec: the Product uniqueness constraint behind
createMany with skipDuplicates.  The Prisma schema is not under src/; per
the spec a duplicate is a record identical to one already stored for the
same run, so the key is the whole record.  Inserting appends the record
unless an equal one is already present. -/
def insertSkipDup (acc : List Product) (p : Product) : List Product :=
  if p ∈ acc then acc else acc ++ [p]

/-- prisma.product.createMany with skipDuplicates (lines 106-109): append
the batch in order, skipping duplicates. -/
def createManyProducts (db : DB) (ps : List Product) : DB :=
  { db with products := ps.foldl insertSkipDup db.products }

/-- prisma.product.deleteMany where fileProcessId (lines 204-206). -/
def deleteProductsOf (db : DB) (fileProcessId : String) : DB :=
  { db with products := db.products.filter (fun p => p.fileProcessId != fileProcessId) }

/-- The product rows belonging to one run. -/
def productsOf (db : DB) (fileProcessId : String) : List Product :=
  db.products.filter (fun p => p.fileProcessId == fileProcessId)

/-- The field update written by the progress update: processedRows only. -/
def setProcessedRows (n : ℕ) (f : FileProcess) : FileProcess :=
  { f with processedRows := n }

/-- The field update written when the row count is known (lines 80-83):
totalRows only. -/
def setTotalRows (n : ℕ) (f : FileProcess) : FileProcess :=
  { f with totalRows := some n }

/-- The progress update issued after each batch (lines 115-118): an
unconditional write of the cumulative counter, with no terminal-state
guard. -/
def updateProgress (db : DB) (id : String) (n : ℕ) : DB :=
  updateFileProcess db id (setProcessedRows n)

/-- The completion update (lines 125-132): status COMPLETED, completion
timestamp, and processedRows set to the run's total unconditionally. -/
def markCompleted (total now : ℕ) (f : FileProcess) : FileProcess :=
  { f with status := .COMPLETED, completedAt := some now, processedRows := total }

/-- The fallback applied to a thrown error's message on line 139:
error.message || 'Unknown error occurred' (an empty message is falsy). -/
def errText (msg : String) : String :=
  if msg = "" then "Unknown error occurred" else msg

/-- The failure update in the catch block (lines 135-142): status FAILED,
the error message with its falsy fallback, and the completion timestamp;
processedRows is not touched. -/
def markFailed (msg : String) (now : ℕ) (f : FileProcess) : FileProcess :=
  { f with status := .FAILED, errorMessage := some (errText msg),
           completedAt := some now }

/-- The run-field updates a fully successful pass of the body applies to its
run, composed in commit order: totalRows set to the parsed row count, then
the completion update. -/
def completedRun (n now : ℕ) (f : FileProcess) : FileProcess :=
  markCompleted n now (setTotalRows n f)

/-- The batch size fixed on line 86. -/
def batchSize : ℕ := 100

/-- Number of iterations of the loop for (i = 0; i < n; i += batchSize):
one per started batch. -/
def numBatches (n : ℕ) : ℕ :=
  (n + (batchSize - 1)) / batchSize

/-- Outcome of the fetch-and-parse prefix of the body (lines 66-75): axios
and XLSX are external collaborators, so their outcome is an input — either
a thrown error's message (fetch failure, timeout or parse failure) or the
decoded row list of the first sheet. -/
abbrev FetchParse := Except String (List ExcelRow)

/-- The batch sliced at loop index i = batchSize * b (line 90:
rows.slice(i, i + batchSize)). -/
def batchOf (rows : List ExcelRow) (b : ℕ) : List ExcelRow :=
  (rows.drop (batchSize * b)).take batchSize

/-- The products prepared from one batch (lines 93-102): filter by the
acceptance predicate, then map to products. -/
def batchProds (id : String) (rows : List ExcelRow) (b : ℕ) : List Product :=
  ((batchOf rows b).filter rowAccepted).map (toProduct id)

/-- One iteration of the batch loop (lines 89-122) at loop index
i = batchSize * b: slice the batch, filter and map it to products,
bulk-insert when non-empty, and write the advanced cumulative counter.
Returns the store state after the insert, the state after the counter
write, and the new cumulative counter. -/
def loopStep (id : String) (rows : List ExcelRow) (b processed : ℕ) (db : DB) :
    DB × DB × ℕ :=
  let db1 :=
    if (batchProds id rows b).isEmpty then db
    else createManyProducts db (batchProds id rows b)
  let processed1 := processed + (batchOf rows b).length
  (db1, updateProgress db1 id processed1, processed1)

/-- The batch loop of processFileInBackground followed by its
success/failure epilogue, as the list of store states it commits.  iters
counts the remaining loop iterations (the caller passes numBatches, which
renders the source's condition i < rows.length); b is the current batch
index; wfail optionally names a batch index whose bulk write throws,
standing for a store write error, together with the thrown message — the
catch block then commits the failure update and the body ends.  When the
loop finishes, the completion update is committed. -/
def processLoop (id : String) (total : ℕ) (wfail : Option (ℕ × String)) (now : ℕ)
    (rows : List ExcelRow) : ℕ → ℕ → ℕ → DB → List DB
  | 0, _b, _processed, db => [updateFileProcess db id (markCompleted total now)]
  | iters + 1, b, processed, db =>
    match wfail with
    | some (fb, msg) =>
      if fb = b then
        [updateFileProcess db id (markFailed msg now)]
      else
        let s := loopStep id rows b processed db
        s.1 :: s.2.1 :: processLoop id total wfail now rows iters (b + 1) s.2.2 s.2.1
    | none =>
      let s := loopStep id rows b processed db
      s.1 :: s.2.1 :: processLoop id total wfail now rows iters (b + 1) s.2.2 s.2.1

/-- processFileInBackground (lines 60-144): the sequence of store states
committed by one execution of the background body, in order.  A fetch or
parse error (input = error) is caught at the top level and commits only the
failure update; otherwise the body writes totalRows, runs the batch loop
and finishes with the completion update, unless a write error (wfail) cuts
it short with the failure update.  The body is a total function — no error
escapes it. -/
def processFileInBackground (id : String) (input : FetchParse)
    (wfail : Option (ℕ × String)) (now : ℕ) (db : DB) : List DB :=
  match input with
  | .error msg => [updateFileProcess db id (markFailed msg now)]
  | .ok rows =>
    let db1 := updateFileProcess db id (setTotalRows rows.length)
    db1 :: processLoop id rows.length wfail now rows (numBatches rows.length) 0 0 db1

/-- The store state in which one execution of the body leaves the store:
the last committed state of its trace. -/
def finalState (id : String) (input : FetchParse) (wfail : Option (ℕ × String))
    (now : ℕ) (db : DB) : DB :=
  (processFileInBackground id input wfail now db).getLastD db

/-- initiateProcessing (lines 37-54): create the run row with status
IN_PROGRESS and return it; the background body is then scheduled
separately.  The unnamed-field defaults (null totals, zero processed, the
creation instant as startedAt) come from the spec's data model, the Prisma
schema being outside src/. -/
def initiateProcessing (db : DB) (newId userId fileName fileUrl : String)
    (now : ℕ) : FileProcess × DB :=
  let fp : FileProcess :=
    { id := newId, userId := userId, fileName := fileName, fileUrl := fileUrl,
      status := .IN_PROGRESS, totalRows := none, processedRows := 0,
      errorMessage := none, startedAt := now, completedAt := none }
  (fp, { db with fileProcesses := db.fileProcesses ++ [fp] })

/-- The reset written by the retry update (lines 192-201): status back to
IN_PROGRESS, counters and error fields cleared, startedAt set to the retry
instant; every other field is left as it was. -/
def retryReset (now : ℕ) (f : FileProcess) : FileProcess :=
  { f with status := .IN_PROGRESS, processedRows := 0, errorMessage := none,
           completedAt := none, startedAt := now }

/-- retryProcessing (lines 178-214), synchronous part: owner-scoped lookup,
status guard, reset update, then deletion of the run's products.  The
re-scheduled background body is composed separately, exactly as the code
fires it after this part returns.  On either failure the store is returned
unchanged. -/
def retryProcessing (db : DB) (id userId : String) (now : ℕ) :
    Except ServiceError FileProcess × DB :=
  match findFileProcess db id userId with
  | none => (.error .notFoundOrForbidden, db)
  | some fileProcess =>
    if fileProcess.status ≠ .FAILED then (.error .invalidState, db)
    else
      let db1 := updateFileProcess db id (retryReset now)
      let db2 := deleteProductsOf db1 id
      (.ok (retryReset now fileProcess), db2)

/-- getFileProcesses (lines 149-159): the owner-scoped run listing.  The
FilterQueryV2 helper (filters and pagination over the base where-clause) is
not under src/ and is, per the spec, an external collaborator's concern;
the owner scoping userId is what is modelled. -/
def getFileProcesses (db : DB) (userId : String) : List FileProcess :=
  db.fileProcesses.filter (fun f => f.userId == userId)

/-- getById (lines 164-173): owner-scoped read of one run together with its
product count; none when no run with this id is owned by the caller. -/
def getById (db : DB) (id userId : String) : Option (FileProcess × ℕ) :=
  (findFileProcess db id userId).map (fun f => (f, (productsOf db f.id).length))

/-- FileProcessController.getById, the handler of GET /file-process/:id
(src/unnamed/part_001, lines 278-299): calls the service's owner-scoped
getById with the authenticated caller's user id and answers 404 with the
message 'File process not found' when it returns null, otherwise 200 with
the run.  The authentication guard (req.user, answered 401) belongs to the
external identity provider and is before this model's entry. -/
def controllerGetById (db : DB) (id userId : String) :
    Except (ℕ × String) (FileProcess × ℕ) :=
  match getById db id userId with
  | none => .error (404, "File process not found")
  | some x => .ok x

/-- getProducts (lines 219-238): ownership check, then the run's product
listing (filters and pagination again being the external helper's
concern). -/
def getProducts (db : DB) (fileProcessId userId : String) :
    Except ServiceError (List Product) :=
  match findFileProcess db fileProcessId userId with
  | none => .error .notFoundOrForbidden
  | some _ => .ok (productsOf db fileProcessId)

/-- The empty store. -/
def emptyDB : DB := { fileProcesses := [], products := [] }

/-- A freshly created run, used as a concrete instance in witnesses. -/
def wRun : FileProcess :=
  { id := "r1", userId := "u1", fileName := "cat.xlsx",
    fileUrl := "http://files/cat.xlsx", status := .IN_PROGRESS,
    totalRows := none, processedRows := 0, errorMessage := none,
    startedAt := 0, completedAt := none }

/-- A store holding one freshly created run. -/
def wDB : DB := { fileProcesses := [wRun], products := [] }

/-- The same run after a failed attempt. -/
def wRunFailed : FileProcess :=
  { wRun with
    status := .FAILED,
    errorMessage := some "boom",
    completedAt := some 7,
    totalRows := some 2,
    processedRows := 1 }

/-- A leftover product from the failed attempt. -/
def wOldProduct : Product :=
  { fileProcessId := "r1", name := "Old", category := "Stale",
    price := some 1, stock := some 0, description := none }

/-- A store holding the failed run and its leftover product. -/
def wDBFailed : DB := { fileProcesses := [wRunFailed], products := [wOldProduct] }

/-- The same run after a completed attempt. -/
def wRunDone : FileProcess :=
  { wRun with
    status := .COMPLETED,
    totalRows := some 3,
    processedRows := 3,
    completedAt := some 5 }

/-- A store holding one completed run. -/
def wDBDone : DB := { fileProcesses := [wRunDone], products := [] }

/-- A fully valid row. -/
def wRowOk : ExcelRow :=
  { name := some (.str "Widget"), category := some (.str "Tools"),
    price := some (.str "9.99"), stock := some (.num 5) }

/-- A row whose price cell is non-numeric text: truthy, but parseFloat of it
is NaN. -/
def wRowBadPrice : ExcelRow :=
  { name := some (.str "Gadget"), category := some (.str "Tools"),
    price := some (.str "oops") }

/-- A row with valid required fields and no stock cell. -/
def wRowNoStock : ExcelRow :=
  { name := some (.str "Gizmo"), category := some (.str "Toys"),
    price := some (.num 3) }

/-- A row with valid required fields whose stock cell is truthy text that
parseInt cannot parse. -/
def wRowBadStock : ExcelRow :=
  { name := some (.str "Widget"), category := some (.str "Tools"),
    price := some (.num 5), stock := some (.str "abc") }

end Ingest

namespace Ingest

/-! Helper lemmas about the store operations. -/

theorem mem_insertSkipDup {p a : Product} {acc : List Product} :
    p ∈ insertSkipDup acc a ↔ p ∈ acc ∨ p = a := by
  unfold insertSkipDup
  split
  · rename_i h
    constructor
    · exact fun hp => Or.inl hp
    · rintro (hp | rfl)
      · exact hp
      · exact h
  · simp [List.mem_append]

theorem mem_foldl_insertSkipDup {p : Product} (l : List Product) :
    ∀ init : List Product,
      p ∈ l.foldl insertSkipDup init ↔ p ∈ init ∨ p ∈ l := by
  induction l with
  | nil => intro init; simp
  | cons a l ih =>
    intro init
    rw [List.foldl_cons, ih, mem_insertSkipDup]
    simp [or_assoc]

theorem filter_insertSkipDup {P : Product → Bool} {a : Product}
    (acc : List Product) (ha : P a = true) :
    (insertSkipDup acc a).filter P = insertSkipDup (acc.filter P) a := by
  unfold insertSkipDup
  by_cases h : a ∈ acc
  · have : a ∈ acc.filter P := List.mem_filter.mpr ⟨h, ha⟩
    simp [h, this]
  · have : a ∉ acc.filter P := fun hmem => h (List.mem_filter.mp hmem).1
    simp [h, this, List.filter_append, ha]

theorem filter_foldl_insertSkipDup {P : Product → Bool} (l : List Product)
    (hl : ∀ p ∈ l, P p = true) :
    ∀ init : List Product,
      (l.foldl insertSkipDup init).filter P = l.foldl insertSkipDup (init.filter P) := by
  induction l with
  | nil => intro init; simp
  | cons a l ih =>
    intro init
    rw [List.foldl_cons, List.foldl_cons,
      ih (fun p hp => hl p (List.mem_cons_of_mem a hp)),
      filter_insertSkipDup init (hl a (List.mem_cons_self a l))]

theorem createManyProducts_nil (db : DB) : createManyProducts db [] = db := rfl

theorem createManyProducts_append (db : DB) (l₁ l₂ : List Product) :
    createManyProducts db (l₁ ++ l₂) = createManyProducts (createManyProducts db l₁) l₂ := by
  simp [createManyProducts, List.foldl_append]

theorem createManyProducts_of_isEmpty (db : DB) (ps : List Product) :
    (if ps.isEmpty then db else createManyProducts db ps) = createManyProducts db ps := by
  cases ps with
  | nil => simp [createManyProducts_nil]
  | cons a l => simp [List.isEmpty]

theorem createManyProducts_fileProcesses (db : DB) (ps : List Product) :
    (createManyProducts db ps).fileProcesses = db.fileProcesses := rfl

theorem updateFileProcess_products (db : DB) (id : String)
    (u : FileProcess → FileProcess) :
    (updateFileProcess db id u).products = db.products := rfl

theorem updateFileProcess_createMany_comm (db : DB) (id : String)
    (u : FileProcess → FileProcess) (ps : List Product) :
    updateFileProcess (createManyProducts db ps) id u =
      createManyProducts (updateFileProcess db id u) ps := rfl

theorem updateFileProcess_comp (db : DB) (id : String)
    (u₁ u₂ : FileProcess → FileProcess) (hid : ∀ f, (u₁ f).id = f.id) :
    updateFileProcess (updateFileProcess db id u₁) id u₂ =
      updateFileProcess db id (fun f => u₂ (u₁ f)) := by
  unfold updateFileProcess
  simp only [List.map_map]
  congr 1
  apply List.map_congr_left
  intro f _
  by_cases h : f.id = id
  · have h2 : (u₁ f).id = id := by rw [hid f]; exact h
    simp [Function.comp_apply, h, h2]
  · simp [Function.comp_apply, h]

theorem mem_updateFileProcess {f' : FileProcess} {db : DB} {id : String}
    {u : FileProcess → FileProcess} :
    f' ∈ (updateFileProcess db id u).fileProcesses ↔
      ∃ f ∈ db.fileProcesses, f' = if f.id == id then u f else f := by
  unfold updateFileProcess
  simp only [List.mem_map]
  constructor
  · rintro ⟨f, hf, rfl⟩; exact ⟨f, hf, rfl⟩
  · rintro ⟨f, hf, rfl⟩; exact ⟨f, hf, rfl⟩

end Ingest

namespace Ingest

/-! Lemmas about the batch loop. -/

theorem processLoop_ne_nil (id : String) (total : ℕ) (wfail : Option (ℕ × String))
    (now : ℕ) (rows : List ExcelRow) (iters b processed : ℕ) (db : DB) :
    processLoop id total wfail now rows iters b processed db ≠ [] := by
  cases iters with
  | zero => simp [processLoop]
  | succ k =>
    cases wfail with
    | none => simp [processLoop]
    | some x =>
      obtain ⟨fb, msg⟩ := x
      by_cases h : fb = b <;> simp [processLoop, h]

theorem markCompleted_setProcessedRows (total now p : ℕ) (f : FileProcess) :
    markCompleted total now (setProcessedRows p f) = markCompleted total now f := rfl

theorem setProcessedRows_id (p : ℕ) (f : FileProcess) :
    (setProcessedRows p f).id = f.id := rfl

theorem loopStep_snd_fst (id : String) (rows : List ExcelRow)
    (b processed : ℕ) (db : DB) :
    (loopStep id rows b processed db).2.1 =
      updateFileProcess (createManyProducts db (batchProds id rows b)) id
        (setProcessedRows (processed + (batchOf rows b).length)) := by
  rw [show (loopStep id rows b processed db).2.1 =
      updateProgress
        (if (batchProds id rows b).isEmpty then db
         else createManyProducts db (batchProds id rows b))
        id (processed + (batchOf rows b).length) from rfl,
    createManyProducts_of_isEmpty]
  rfl

theorem loopStep_snd_snd (id : String) (rows : List ExcelRow)
    (b processed : ℕ) (db : DB) :
    (loopStep id rows b processed db).2.2 =
      processed + (batchOf rows b).length := rfl

theorem loopStep_fst_products (id : String) (rows : List ExcelRow)
    (b processed : ℕ) (db : DB) :
    (loopStep id rows b processed db).1.products =
      (createManyProducts db (batchProds id rows b)).products := by
  rw [show (loopStep id rows b processed db).1 =
      (if (batchProds id rows b).isEmpty then db
       else createManyProducts db (batchProds id rows b)) from rfl,
    createManyProducts_of_isEmpty]

theorem loopStep_fst_fileProcesses (id : String) (rows : List ExcelRow)
    (b processed : ℕ) (db : DB) :
    (loopStep id rows b processed db).1.fileProcesses = db.fileProcesses := by
  rw [show (loopStep id rows b processed db).1 =
      (if (batchProds id rows b).isEmpty then db
       else createManyProducts db (batchProds id rows b)) from rfl,
    createManyProducts_of_isEmpty, createManyProducts_fileProcesses]

theorem chunk_take_succ (rows : List ExcelRow) (b k : ℕ) :
    batchOf rows b ++ (rows.drop (batchSize * (b + 1))).take (batchSize * k) =
    (rows.drop (batchSize * b)).take (batchSize * (k + 1)) := by
  unfold batchOf
  have h1 : batchSize * (b + 1) = batchSize * b + batchSize := by ring
  have h2 : batchSize * (k + 1) = batchSize + batchSize * k := by ring
  rw [h1, h2, ← List.drop_drop, List.take_add]

theorem processLoop_cons_none (id : String) (total now : ℕ)
    (rows : List ExcelRow) (k b processed : ℕ) (db : DB) :
    processLoop id total none now rows (k + 1) b processed db =
      (loopStep id rows b processed db).1 ::
        (loopStep id rows b processed db).2.1 ::
        processLoop id total none now rows k (b + 1)
          (loopStep id rows b processed db).2.2
          (loopStep id rows b processed db).2.1 := rfl

theorem processLoop_cons_fail_hit (id : String) (total now fb : ℕ) (msg : String)
    (rows : List ExcelRow) (k b processed : ℕ) (db : DB) (h : fb = b) :
    processLoop id total (some (fb, msg)) now rows (k + 1) b processed db =
      [updateFileProcess db id (markFailed msg now)] := by
  rw [show processLoop id total (some (fb, msg)) now rows (k + 1) b processed db =
      (if fb = b then [updateFileProcess db id (markFailed msg now)]
       else
         (loopStep id rows b processed db).1 ::
           (loopStep id rows b processed db).2.1 ::
           processLoop id total (some (fb, msg)) now rows k (b + 1)
             (loopStep id rows b processed db).2.2
             (loopStep id rows b processed db).2.1) from rfl,
    if_pos h]

theorem processLoop_cons_fail_miss (id : String) (total now fb : ℕ) (msg : String)
    (rows : List ExcelRow) (k b processed : ℕ) (db : DB) (h : ¬ fb = b) :
    processLoop id total (some (fb, msg)) now rows (k + 1) b processed db =
      (loopStep id rows b processed db).1 ::
        (loopStep id rows b processed db).2.1 ::
        processLoop id total (some (fb, msg)) now rows k (b + 1)
          (loopStep id rows b processed db).2.2
          (loopStep id rows b processed db).2.1 := by
  rw [show processLoop id total (some (fb, msg)) now rows (k + 1) b processed db =
      (if fb = b then [updateFileProcess db id (markFailed msg now)]
       else
         (loopStep id rows b processed db).1 ::
           (loopStep id rows b processed db).2.1 ::
           processLoop id total (some (fb, msg)) now rows k (b + 1)
             (loopStep id rows b processed db).2.2
             (loopStep id rows b processed db).2.1) from rfl,
    if_neg h]

theorem processLoop_none_getLastD (id : String) (total now : ℕ)
    (rows : List ExcelRow) (iters : ℕ) :
    ∀ (b processed : ℕ) (db d : DB),
      (processLoop id total none now rows iters b processed db).getLastD d =
        updateFileProcess
          (createManyProducts db
            ((((rows.drop (batchSize * b)).take (batchSize * iters)).filter
                rowAccepted).map (toProduct id)))
          id (markCompleted total now) := by
  induction iters with
  | zero =>
    intro b processed db d
    simp [processLoop, createManyProducts_nil]
  | succ k ih =>
    intro b processed db d
    rw [processLoop_cons_none, List.getLastD_cons, List.getLastD_cons, ih,
      loopStep_snd_fst, ← updateFileProcess_createMany_comm,
      updateFileProcess_comp _ _ _ _ (setProcessedRows_id _)]
    rw [show (fun f => markCompleted total now
        (setProcessedRows (processed + (batchOf rows b).length) f)) =
        markCompleted total now from rfl]
    rw [← createManyProducts_append]
    rw [show batchProds id rows b ++
        (((rows.drop (batchSize * (b + 1))).take (batchSize * k)).filter
          rowAccepted).map (toProduct id) =
        (((batchOf rows b ++
            (rows.drop (batchSize * (b + 1))).take (batchSize * k)).filter
          rowAccepted).map (toProduct id)) from by
      unfold batchProds
      rw [List.filter_append, List.map_append]]
    rw [chunk_take_succ]

theorem mem_updateFileProcess_id {f : FileProcess} {db : DB} {id : String}
    {u : FileProcess → FileProcess}
    (hf : f ∈ (updateFileProcess db id u).fileProcesses) (hfid : f.id = id) :
    ∃ f0 ∈ db.fileProcesses, f0.id = id ∧ f = u f0 := by
  obtain ⟨f0, hf0, hcond⟩ := mem_updateFileProcess.mp hf
  by_cases h0 : f0.id = id
  · refine ⟨f0, hf0, h0, ?_⟩
    simpa [h0] using hcond
  · exfalso
    rw [if_neg (by simpa using h0)] at hcond
    rw [hcond] at hfid
    exact h0 hfid

theorem take_length_succ_batch (rows : List ExcelRow) (b : ℕ) :
    (rows.take (batchSize * (b + 1))).length =
      (rows.take (batchSize * b)).length + (batchOf rows b).length := by
  rw [show batchSize * (b + 1) = batchSize * b + batchSize from by ring,
    List.take_add, List.length_append]
  rfl

theorem rows_length_le_batches (n : ℕ) : n ≤ batchSize * numBatches n := by
  unfold numBatches batchSize
  omega

theorem finalState_ok_none (id : String) (now : ℕ) (rows : List ExcelRow)
    (db : DB) :
    finalState id (.ok rows) none now db =
      updateFileProcess
        (createManyProducts db ((rows.filter rowAccepted).map (toProduct id)))
        id (completedRun rows.length now) := by
  show ((updateFileProcess db id (setTotalRows rows.length)) ::
      processLoop id rows.length none now rows (numBatches rows.length) 0 0
        (updateFileProcess db id (setTotalRows rows.length))).getLastD db = _
  rw [List.getLastD_cons, processLoop_none_getLastD]
  rw [show batchSize * 0 = 0 from by ring, List.drop_zero,
    List.take_of_length_le (rows_length_le_batches rows.length),
    ← updateFileProcess_createMany_comm,
    updateFileProcess_comp _ id (setTotalRows rows.length)
      (markCompleted rows.length now) (fun f => rfl)]
  rfl

theorem processLoop_fail_getLastD (id : String) (total now fb : ℕ) (msg : String)
    (rows : List ExcelRow) (iters : ℕ) :
    ∀ (b processed : ℕ) (db d : DB),
      b ≤ fb → fb - b < iters →
      (∀ f ∈ db.fileProcesses, f.id = id → f.processedRows = processed) →
      processed = (rows.take (batchSize * b)).length →
      ∀ f ∈ ((processLoop id total (some (fb, msg)) now rows iters b processed
          db).getLastD d).fileProcesses,
        f.id = id →
          f.status = .FAILED ∧ f.errorMessage = some (errText msg) ∧
          f.completedAt = some now ∧
          f.processedRows = (rows.take (batchSize * fb)).length := by
  induction iters with
  | zero =>
    intro b processed db d _ habs
    omega
  | succ k ih =>
    intro b processed db d hble hreach hproc htake f hf hfid
    by_cases hfb : fb = b
    · rw [processLoop_cons_fail_hit _ _ _ _ _ _ _ _ _ _ hfb] at hf
      simp only [List.getLastD_cons, List.getLastD_nil] at hf
      obtain ⟨f0, hf0, hf0id, rfl⟩ := mem_updateFileProcess_id hf hfid
      refine ⟨rfl, rfl, rfl, ?_⟩
      show f0.processedRows = _
      rw [hproc f0 hf0 hf0id, htake, hfb]
    · rw [processLoop_cons_fail_miss _ _ _ _ _ _ _ _ _ _ hfb] at hf
      rw [List.getLastD_cons, List.getLastD_cons] at hf
      refine ih (b + 1) (loopStep id rows b processed db).2.2
        (loopStep id rows b processed db).2.1 _ (by omega) (by omega)
        ?_ ?_ f hf hfid
      · intro g hg hgid
        rw [loopStep_snd_fst] at hg
        obtain ⟨g0, _, _, rfl⟩ := mem_updateFileProcess_id hg hgid
        rfl
      · rw [loopStep_snd_snd, htake, take_length_succ_batch]

theorem finalState_error (id msg : String) (wfail : Option (ℕ × String))
    (now : ℕ) (db : DB) :
    finalState id (.error msg) wfail now db =
      updateFileProcess db id (markFailed msg now) := rfl

theorem finalState_ok_fail (id : String) (now fb : ℕ) (msg : String)
    (rows : List ExcelRow) (db : DB)
    (hreach : batchSize * fb < rows.length)
    (hproc : ∀ f ∈ db.fileProcesses, f.id = id → f.processedRows = 0) :
    ∀ f ∈ (finalState id (.ok rows) (some (fb, msg)) now db).fileProcesses,
      f.id = id →
        f.status = .FAILED ∧ f.errorMessage = some (errText msg) ∧
        f.completedAt = some now ∧
        f.processedRows = (rows.take (batchSize * fb)).length := by
  intro f hf hfid
  rw [show finalState id (.ok rows) (some (fb, msg)) now db =
      (processLoop id rows.length (some (fb, msg)) now rows
        (numBatches rows.length) 0 0
        (updateFileProcess db id (setTotalRows rows.length))).getLastD
        (updateFileProcess db id (setTotalRows rows.length)) from by
    show ((updateFileProcess db id (setTotalRows rows.length)) ::
        processLoop id rows.length (some (fb, msg)) now rows
          (numBatches rows.length) 0 0
          (updateFileProcess db id (setTotalRows rows.length))).getLastD db = _
    rw [List.getLastD_cons]] at hf
  refine processLoop_fail_getLastD id rows.length now fb msg rows
    (numBatches rows.length) 0 0 _ _ (Nat.zero_le fb) ?_ ?_ ?_ f hf hfid
  · simp only [numBatches, batchSize] at hreach ⊢
    omega
  · intro g hg hgid
    obtain ⟨g0, hg0, hg0id, rfl⟩ := mem_updateFileProcess_id hg hgid
    show g0.processedRows = 0
    exact hproc g0 hg0 hg0id
  · simp [batchSize]

theorem processLoop_cons_general (id : String) (total now : ℕ)
    (wfail : Option (ℕ × String)) (rows : List ExcelRow)
    (k b processed : ℕ) (db : DB)
    (h : ∀ fb msg, wfail = some (fb, msg) → fb ≠ b) :
    processLoop id total wfail now rows (k + 1) b processed db =
      (loopStep id rows b processed db).1 ::
        (loopStep id rows b processed db).2.1 ::
        processLoop id total wfail now rows k (b + 1)
          (loopStep id rows b processed db).2.2
          (loopStep id rows b processed db).2.1 := by
  cases wfail with
  | none => exact processLoop_cons_none id total now rows k b processed db
  | some x =>
    obtain ⟨fb, msg⟩ := x
    exact processLoop_cons_fail_miss _ _ _ _ _ _ _ _ _ _ (h fb msg rfl)

theorem batchOf_length_le (rows : List ExcelRow) (b : ℕ) :
    (batchOf rows b).length ≤ (rows.drop (batchSize * b)).length := by
  simp only [batchOf, List.length_take, List.length_drop]
  exact min_le_right _ _

theorem drop_length_succ (rows : List ExcelRow) (b : ℕ) :
    (rows.drop (batchSize * (b + 1))).length =
      (rows.drop (batchSize * b)).length - (batchOf rows b).length := by
  simp only [batchOf, List.length_take, List.length_drop]
  rw [show batchSize * (b + 1) = batchSize * b + batchSize from by ring]
  rcases Nat.le_total batchSize (rows.length - batchSize * b) with h | h
  · rw [min_eq_left h]
    omega
  · rw [min_eq_right h]
    omega

theorem processLoop_inv (id : String) (total now : ℕ)
    (wfail : Option (ℕ × String)) (rows : List ExcelRow) (iters : ℕ) :
    ∀ (b processed : ℕ) (db : DB),
      processed + (rows.drop (batchSize * b)).length = total →
      (∀ f ∈ db.fileProcesses, f.id = id →
          f.totalRows = some total ∧ f.processedRows = processed ∧
          f.status = .IN_PROGRESS) →
      ∀ db' ∈ processLoop id total wfail now rows iters b processed db,
        ∀ f ∈ db'.fileProcesses, f.id = id →
          (∀ t, f.totalRows = some t → f.processedRows ≤ t) ∧
          (f.status = .COMPLETED → f.totalRows = some f.processedRows) := by
  induction iters with
  | zero =>
    intro b processed db hsum hINV db' hdb' f hf hfid
    rw [show processLoop id total wfail now rows 0 b processed db =
        [updateFileProcess db id (markCompleted total now)] from rfl] at hdb'
    simp only [List.mem_singleton] at hdb'
    subst hdb'
    obtain ⟨f0, hf0, hf0id, rfl⟩ := mem_updateFileProcess_id hf hfid
    obtain ⟨ht, _hp, _hs⟩ := hINV f0 hf0 hf0id
    constructor
    · intro t htt
      have h1 : f0.totalRows = some t := htt
      rw [ht] at h1
      injection h1 with h1
      show total ≤ t
      omega
    · intro _
      show f0.totalRows = some total
      exact ht
  | succ k ih =>
    intro b processed db hsum hINV db' hdb' f hf hfid
    by_cases hhit : ∃ x : ℕ × String, wfail = some x ∧ x.1 = b
    · obtain ⟨⟨fb, msg⟩, hw, hfb⟩ := hhit
      subst hw
      rw [processLoop_cons_fail_hit _ _ _ _ _ _ _ _ _ _ hfb] at hdb'
      simp only [List.mem_singleton] at hdb'
      subst hdb'
      obtain ⟨f0, hf0, hf0id, rfl⟩ := mem_updateFileProcess_id hf hfid
      obtain ⟨ht, hp, _hs⟩ := hINV f0 hf0 hf0id
      constructor
      · intro t htt
        have h1 : f0.totalRows = some t := htt
        rw [ht] at h1
        injection h1 with h1
        show f0.processedRows ≤ t
        omega
      · intro hC
        exact absurd hC (by simp [markFailed])
    · have hno : ∀ fb msg, wfail = some (fb, msg) → fb ≠ b := by
        intro fb msg hw hfb
        exact hhit ⟨(fb, msg), hw, hfb⟩
      rw [processLoop_cons_general _ _ _ _ _ _ _ _ _ hno] at hdb'
      rcases List.mem_cons.mp hdb' with h1 | hdb2
      · subst h1
        rw [loopStep_fst_fileProcesses] at hf
        obtain ⟨ht, hp, hs⟩ := hINV f hf hfid
        constructor
        · intro t htt
          rw [ht] at htt
          injection htt with htt
          omega
        · intro hC
          rw [hs] at hC
          simp at hC
      rcases List.mem_cons.mp hdb2 with h1 | hdb3
      · subst h1
        rw [loopStep_snd_fst] at hf
        obtain ⟨f0, hf0, hf0id, rfl⟩ := mem_updateFileProcess_id hf hfid
        rw [createManyProducts_fileProcesses] at hf0
        obtain ⟨ht, _hp, hs⟩ := hINV f0 hf0 hf0id
        have hlen := batchOf_length_le rows b
        constructor
        · intro t htt
          have h1 : f0.totalRows = some t := htt
          rw [ht] at h1
          injection h1 with h1
          show processed + (batchOf rows b).length ≤ t
          omega
        · intro hC
          have : f0.status = .COMPLETED := hC
          rw [hs] at this
          simp at this
      · rw [loopStep_snd_snd] at hdb3
        refine ih (b + 1) (processed + (batchOf rows b).length)
          (loopStep id rows b processed db).2.1 ?_ ?_ db' hdb3 f hf hfid
        · have hlen := batchOf_length_le rows b
          have hd := drop_length_succ rows b
          omega
        · intro g hg hgid
          rw [loopStep_snd_fst] at hg
          obtain ⟨g0, hg0, hg0id, rfl⟩ := mem_updateFileProcess_id hg hgid
          rw [createManyProducts_fileProcesses] at hg0
          obtain ⟨ht, _hp, hs⟩ := hINV g0 hg0 hg0id
          exact ⟨ht, rfl, hs⟩

theorem take_all_length (rows : List ExcelRow) :
    (rows.take (batchSize * rows.length)).length = rows.length := by
  simp only [List.length_take]
  simp only [batchSize]
  omega

theorem processLoop_checkpoints (id : String) (now : ℕ)
    (wfail : Option (ℕ × String)) (rows : List ExcelRow) (iters : ℕ) :
    ∀ (b processed : ℕ) (db : DB),
      processed = (rows.take (batchSize * b)).length →
      (∀ f ∈ db.fileProcesses, f.id = id → f.processedRows = processed) →
      ∀ db' ∈ processLoop id rows.length wfail now rows iters b processed db,
        ∀ f ∈ db'.fileProcesses, f.id = id →
          ∃ k, f.processedRows = (rows.take (batchSize * k)).length := by
  induction iters with
  | zero =>
    intro b processed db htake hproc db' hdb' f hf hfid
    rw [show processLoop id rows.length wfail now rows 0 b processed db =
        [updateFileProcess db id (markCompleted rows.length now)] from rfl] at hdb'
    simp only [List.mem_singleton] at hdb'
    subst hdb'
    obtain ⟨f0, _, _, rfl⟩ := mem_updateFileProcess_id hf hfid
    refine ⟨rows.length, ?_⟩
    show rows.length = _
    rw [take_all_length]
  | succ k ih =>
    intro b processed db htake hproc db' hdb' f hf hfid
    by_cases hhit : ∃ x : ℕ × String, wfail = some x ∧ x.1 = b
    · obtain ⟨⟨fb, msg⟩, hw, hfb⟩ := hhit
      subst hw
      rw [processLoop_cons_fail_hit _ _ _ _ _ _ _ _ _ _ hfb] at hdb'
      simp only [List.mem_singleton] at hdb'
      subst hdb'
      obtain ⟨f0, hf0, hf0id, rfl⟩ := mem_updateFileProcess_id hf hfid
      refine ⟨b, ?_⟩
      show f0.processedRows = _
      rw [hproc f0 hf0 hf0id, htake]
    · have hno : ∀ fb msg, wfail = some (fb, msg) → fb ≠ b := by
        intro fb msg hw hfb
        exact hhit ⟨(fb, msg), hw, hfb⟩
      rw [processLoop_cons_general _ _ _ _ _ _ _ _ _ hno] at hdb'
      rcases List.mem_cons.mp hdb' with h1 | hdb2
      · subst h1
        rw [loopStep_fst_fileProcesses] at hf
        exact ⟨b, by rw [hproc f hf hfid, htake]⟩
      rcases List.mem_cons.mp hdb2 with h1 | hdb3
      · subst h1
        rw [loopStep_snd_fst] at hf
        obtain ⟨f0, _, _, rfl⟩ := mem_updateFileProcess_id hf hfid
        refine ⟨b + 1, ?_⟩
        show processed + (batchOf rows b).length = _
        rw [htake, take_length_succ_batch]
      · rw [loopStep_snd_snd] at hdb3
        refine ih (b + 1) (processed + (batchOf rows b).length)
          (loopStep id rows b processed db).2.1 ?_ ?_ db' hdb3 f hf hfid
        · rw [htake, take_length_succ_batch]
        · intro g hg hgid
          rw [loopStep_snd_fst] at hg
          obtain ⟨g0, _, _, rfl⟩ := mem_updateFileProcess_id hg hgid
          rfl

theorem processLoop_dropLast_running (id : String) (total now : ℕ)
    (wfail : Option (ℕ × String)) (rows : List ExcelRow) (iters : ℕ) :
    ∀ (b processed : ℕ) (db : DB),
      (∀ f ∈ db.fileProcesses, f.id = id → f.status = .IN_PROGRESS) →
      ∀ db' ∈ (processLoop id total wfail now rows iters b processed db).dropLast,
        ∀ f ∈ db'.fileProcesses, f.id = id → f.status = .IN_PROGRESS := by
  induction iters with
  | zero =>
    intro b processed db _ db' hdb'
    rw [show processLoop id total wfail now rows 0 b processed db =
        [updateFileProcess db id (markCompleted total now)] from rfl] at hdb'
    simp at hdb'
  | succ k ih =>
    intro b processed db hrun db' hdb' f hf hfid
    by_cases hhit : ∃ x : ℕ × String, wfail = some x ∧ x.1 = b
    · obtain ⟨⟨fb, msg⟩, hw, hfb⟩ := hhit
      subst hw
      rw [processLoop_cons_fail_hit _ _ _ _ _ _ _ _ _ _ hfb] at hdb'
      simp at hdb'
    · have hno : ∀ fb msg, wfail = some (fb, msg) → fb ≠ b := by
        intro fb msg hw hfb
        exact hhit ⟨(fb, msg), hw, hfb⟩
      rw [processLoop_cons_general _ _ _ _ _ _ _ _ _ hno] at hdb'
      have hne := processLoop_ne_nil id total wfail now rows k (b + 1)
        (loopStep id rows b processed db).2.2 (loopStep id rows b processed db).2.1
      rw [List.dropLast_cons₂] at hdb'
      rcases List.mem_cons.mp hdb' with h1 | hdb2
      · subst h1
        rw [loopStep_fst_fileProcesses] at hf
        exact hrun f hf hfid
      · have hstep : ∀ g ∈ (loopStep id rows b processed db).2.1.fileProcesses,
            g.id = id → g.status = ProcessStatus.IN_PROGRESS := by
          intro g hg hgid
          rw [loopStep_snd_fst] at hg
          obtain ⟨g0, hg0, hg0id, rfl⟩ := mem_updateFileProcess_id hg hgid
          rw [createManyProducts_fileProcesses] at hg0
          exact hrun g0 hg0 hg0id
        obtain ⟨r0, rest', hrest⟩ := List.exists_cons_of_ne_nil hne
        rw [hrest, List.dropLast_cons₂] at hdb2
        rcases List.mem_cons.mp hdb2 with h1 | hdb3
        · subst h1
          exact hstep f hf hfid
        · rw [← hrest] at hdb3
          exact ih (b + 1) (loopStep id rows b processed db).2.2
            (loopStep id rows b processed db).2.1 hstep db' hdb3 f hf hfid

theorem body_inv (id : String) (input : FetchParse) (wfail : Option (ℕ × String))
    (now : ℕ) (db : DB)
    (h0 : ∀ f ∈ db.fileProcesses, f.id = id →
        f.processedRows = 0 ∧ f.status = .IN_PROGRESS) :
    ∀ db' ∈ processFileInBackground id input wfail now db,
      ∀ f ∈ db'.fileProcesses, f.id = id →
        (∀ t, f.totalRows = some t → f.processedRows ≤ t) ∧
        (f.status = .COMPLETED → f.totalRows = some f.processedRows) := by
  intro db' hdb' f hf hfid
  cases input with
  | error msg =>
    rw [show processFileInBackground id (.error msg) wfail now db =
        [updateFileProcess db id (markFailed msg now)] from rfl] at hdb'
    simp only [List.mem_singleton] at hdb'
    subst hdb'
    obtain ⟨f0, hf0, hf0id, rfl⟩ := mem_updateFileProcess_id hf hfid
    obtain ⟨hp, _⟩ := h0 f0 hf0 hf0id
    constructor
    · intro t _
      show f0.processedRows ≤ t
      omega
    · intro hC
      exact absurd hC (by simp [markFailed])
  | ok rows =>
    rw [show processFileInBackground id (.ok rows) wfail now db =
        (updateFileProcess db id (setTotalRows rows.length)) ::
          processLoop id rows.length wfail now rows (numBatches rows.length) 0 0
            (updateFileProcess db id (setTotalRows rows.length)) from rfl] at hdb'
    rcases List.mem_cons.mp hdb' with h1 | hdb2
    · subst h1
      obtain ⟨f0, hf0, hf0id, rfl⟩ := mem_updateFileProcess_id hf hfid
      obtain ⟨hp, hs⟩ := h0 f0 hf0 hf0id
      constructor
      · intro t htt
        have h2 : some rows.length = some t := htt
        injection h2 with h2
        show f0.processedRows ≤ t
        omega
      · intro hC
        have h3 : f0.status = .COMPLETED := hC
        rw [hs] at h3
        simp at h3
    · refine processLoop_inv id rows.length now wfail rows (numBatches rows.length)
        0 0 _ ?_ ?_ db' hdb2 f hf hfid
      · simp [batchSize]
      · intro g hg hgid
        obtain ⟨g0, hg0, hg0id, rfl⟩ := mem_updateFileProcess_id hg hgid
        obtain ⟨hp, hs⟩ := h0 g0 hg0 hg0id
        exact ⟨rfl, hp, hs⟩

theorem body_checkpoints (id : String) (rows : List ExcelRow)
    (wfail : Option (ℕ × String)) (now : ℕ) (db : DB)
    (h0 : ∀ f ∈ db.fileProcesses, f.id = id → f.processedRows = 0) :
    ∀ db' ∈ processFileInBackground id (.ok rows) wfail now db,
      ∀ f ∈ db'.fileProcesses, f.id = id →
        ∃ k, f.processedRows = (rows.take (batchSize * k)).length := by
  intro db' hdb' f hf hfid
  rw [show processFileInBackground id (.ok rows) wfail now db =
      (updateFileProcess db id (setTotalRows rows.length)) ::
        processLoop id rows.length wfail now rows (numBatches rows.length) 0 0
          (updateFileProcess db id (setTotalRows rows.length)) from rfl] at hdb'
  rcases List.mem_cons.mp hdb' with h1 | hdb2
  · subst h1
    obtain ⟨f0, hf0, hf0id, rfl⟩ := mem_updateFileProcess_id hf hfid
    exact ⟨0, by simpa using h0 f0 hf0 hf0id⟩
  · refine processLoop_checkpoints id now wfail rows (numBatches rows.length)
      0 0 _ (by simp) ?_ db' hdb2 f hf hfid
    intro g hg hgid
    obtain ⟨g0, hg0, hg0id, rfl⟩ := mem_updateFileProcess_id hg hgid
    exact h0 g0 hg0 hg0id

theorem body_dropLast_running (id : String) (input : FetchParse)
    (wfail : Option (ℕ × String)) (now : ℕ) (db : DB)
    (h0 : ∀ f ∈ db.fileProcesses, f.id = id → f.status = .IN_PROGRESS) :
    ∀ db' ∈ (processFileInBackground id input wfail now db).dropLast,
      ∀ f ∈ db'.fileProcesses, f.id = id → f.status = .IN_PROGRESS := by
  intro db' hdb' f hf hfid
  cases input with
  | error msg =>
    rw [show processFileInBackground id (.error msg) wfail now db =
        [updateFileProcess db id (markFailed msg now)] from rfl] at hdb'
    simp at hdb'
  | ok rows =>
    rw [show processFileInBackground id (.ok rows) wfail now db =
        (updateFileProcess db id (setTotalRows rows.length)) ::
          processLoop id rows.length wfail now rows (numBatches rows.length) 0 0
            (updateFileProcess db id (setTotalRows rows.length)) from rfl] at hdb'
    have hstep : ∀ g ∈ (updateFileProcess db id
        (setTotalRows rows.length)).fileProcesses,
        g.id = id → g.status = ProcessStatus.IN_PROGRESS := by
      intro g hg hgid
      obtain ⟨g0, hg0, hg0id, rfl⟩ := mem_updateFileProcess_id hg hgid
      exact h0 g0 hg0 hg0id
    have hne := processLoop_ne_nil id rows.length wfail now rows
      (numBatches rows.length) 0 0
      (updateFileProcess db id (setTotalRows rows.length))
    obtain ⟨r0, rest', hrest⟩ := List.exists_cons_of_ne_nil hne
    rw [hrest, List.dropLast_cons₂] at hdb'
    rcases List.mem_cons.mp hdb' with h1 | hdb2
    · subst h1
      exact hstep f hf hfid
    · rw [← hrest] at hdb2
      exact processLoop_dropLast_running id rows.length now wfail rows
        (numBatches rows.length) 0 0 _ hstep db' hdb2 f hf hfid

theorem retryProcessing_not_found (db : DB) (id uid : String) (now : ℕ)
    (h : findFileProcess db id uid = none) :
    retryProcessing db id uid now = (.error .notFoundOrForbidden, db) := by
  unfold retryProcessing
  rw [h]

theorem retryProcessing_wrong_state (db : DB) (id uid : String) (now : ℕ)
    (fp : FileProcess) (h1 : findFileProcess db id uid = some fp)
    (h2 : fp.status ≠ .FAILED) :
    retryProcessing db id uid now = (.error .invalidState, db) := by
  unfold retryProcessing
  rw [h1]
  exact if_pos h2

theorem retryProcessing_found_failed (db : DB) (id uid : String) (now : ℕ)
    (fp : FileProcess) (h1 : findFileProcess db id uid = some fp)
    (h2 : fp.status = .FAILED) :
    retryProcessing db id uid now =
      (.ok (retryReset now fp),
       deleteProductsOf (updateFileProcess db id (retryReset now)) id) := by
  unfold retryProcessing
  rw [h1]
  simp [h2]

theorem productsOf_deleteProductsOf (db : DB) (id : String) :
    productsOf (deleteProductsOf db id) id = [] := by
  unfold productsOf deleteProductsOf
  rw [List.filter_filter]
  have h : ∀ p : Product,
      ((p.fileProcessId == id) && (p.fileProcessId != id)) = false := by
    intro p
    by_cases hp : p.fileProcessId = id <;> simp [hp]
  simp only [h]
  exact List.filter_false _

theorem findFileProcess_eq_none (db : DB) (id uid : String)
    (h : ∀ f ∈ db.fileProcesses, f.id = id → f.userId ≠ uid) :
    findFileProcess db id uid = none := by
  unfold findFileProcess
  rw [List.find?_eq_none]
  intro f hf
  simp only [Bool.and_eq_true, beq_iff_eq, not_and]
  intro h1 h2
  exact h f hf h1 h2

theorem body_products_mem (id : String) (now : ℕ) (rows : List ExcelRow)
    (db : DB) (p : Product) :
    p ∈ (finalState id (.ok rows) none now db).products ↔
      p ∈ db.products ∨ ∃ r ∈ rows, rowAccepted r = true ∧ p = toProduct id r := by
  rw [finalState_ok_none, updateFileProcess_products]
  rw [show (createManyProducts db
      ((rows.filter rowAccepted).map (toProduct id))).products =
      ((rows.filter rowAccepted).map (toProduct id)).foldl insertSkipDup
        db.products from rfl]
  rw [mem_foldl_insertSkipDup]
  apply or_congr Iff.rfl
  simp only [List.mem_map, List.mem_filter]
  constructor
  · rintro ⟨r, ⟨hr, ha⟩, rfl⟩
    exact ⟨r, hr, ha, rfl⟩
  · rintro ⟨r, hr, ha, rfl⟩
    exact ⟨r, ⟨hr, ha⟩, rfl⟩

theorem productsOf_finalState_ok (id : String) (now : ℕ)
    (rows : List ExcelRow) (db : DB) (hclean : productsOf db id = []) :
    productsOf (finalState id (.ok rows) none now db) id =
      ((rows.filter rowAccepted).map (toProduct id)).foldl insertSkipDup [] := by
  unfold productsOf at hclean ⊢
  rw [finalState_ok_none, updateFileProcess_products]
  rw [show (createManyProducts db
      ((rows.filter rowAccepted).map (toProduct id))).products =
      ((rows.filter rowAccepted).map (toProduct id)).foldl insertSkipDup
        db.products from rfl]
  rw [filter_foldl_insertSkipDup _ ?_ db.products, hclean]
  intro q hq
  obtain ⟨r, _, rfl⟩ := List.mem_map.mp hq
  simp [toProduct]

/-! Claim theorems. -/

/-- Claim C1, counterexample.  The claim states that a record is produced iff
name and category are non-empty and the price parses as a finite number, and
that in the 3-row scenario (row 2 with a non-numeric price) exactly 2 records
are stored.  On the code, the filter is JS truthiness of the price cell, so
the non-numeric but non-empty price "oops" passes, parseFloat of it is NaN,
and all 3 rows are stored — the second with NaN price. -/
theorem claim_C1_counterexample :
    (finalState "r1" (.ok [wRowOk, wRowBadPrice, wRowNoStock])
      none 1 wDB).products.length = 3 ∧
    ¬ ((finalState "r1" (.ok [wRowOk, wRowBadPrice, wRowNoStock])
      none 1 wDB).products.length = 2) ∧
    rowAccepted wRowBadPrice = true ∧
    (toProduct "r1" wRowBadPrice).price = none := by
  decide

/-- Claim C1, amended.  A product is present in the record set after a
successful run iff it was already stored or some source row with all three of
name, category and price JS-truthy maps to it; truthiness of a string cell
means exactly that the string is non-empty, but truthiness of the price cell
does not require it to parse as a number (a truthy unparsable price row is
stored with NaN price) and the number 0 is falsy (a price-0 row is dropped).
Rows failing the filter contribute nothing to the record set. -/
theorem claim_C1_amended (id : String) (now : ℕ) (rows : List ExcelRow)
    (db : DB) (p : Product) :
    (p ∈ (finalState id (.ok rows) none now db).products ↔
      p ∈ db.products ∨ ∃ r ∈ rows, rowAccepted r = true ∧ p = toProduct id r) ∧
    (∀ r : ExcelRow, rowAccepted r =
      (truthy r.name && truthy r.category && truthy r.price)) ∧
    (∀ s : String, truthy (some (.str s)) = true ↔ s ≠ "") ∧
    truthy none = false ∧
    truthy (some (.num 0)) = false := by
  refine ⟨body_products_mem id now rows db p, fun r => rfl, ?_, rfl, by decide⟩
  intro s
  simp [truthy]

/-- Claim C2: in every store state committed by the background body, a run
with the body's id satisfies processed ≤ total whenever total is set, and
status COMPLETED implies processed = total; moreover the completion update
sets processedRows to the run's total unconditionally.  The body is entered
with the run freshly created or freshly reset (processed 0, IN_PROGRESS), as
at both of its call sites. -/
theorem claim_C2 (id : String) (input : FetchParse)
    (wfail : Option (ℕ × String)) (now : ℕ) (db : DB)
    (h0 : ∀ f ∈ db.fileProcesses, f.id = id →
        f.processedRows = 0 ∧ f.status = .IN_PROGRESS) :
    (∀ (total now2 : ℕ) (f : FileProcess),
        (markCompleted total now2 f).processedRows = total) ∧
    (∀ db' ∈ processFileInBackground id input wfail now db,
      ∀ f ∈ db'.fileProcesses, f.id = id →
        (∀ t, f.totalRows = some t → f.processedRows ≤ t) ∧
        (f.status = .COMPLETED → f.totalRows = some f.processedRows)) :=
  ⟨fun _ _ _ => rfl, body_inv id input wfail now db h0⟩

/-- Claim C2 witness at a concrete run and source. -/
theorem claim_C2_witness :
    (∀ (total now2 : ℕ) (f : FileProcess),
        (markCompleted total now2 f).processedRows = total) ∧
    (∀ db' ∈ processFileInBackground "r1"
        (.ok [wRowOk, wRowBadPrice, wRowNoStock]) none 3 wDB,
      ∀ f ∈ db'.fileProcesses, f.id = "r1" →
        (∀ t, f.totalRows = some t → f.processedRows ≤ t) ∧
        (f.status = .COMPLETED → f.totalRows = some f.processedRows)) :=
  claim_C2 "r1" (.ok [wRowOk, wRowBadPrice, wRowNoStock]) none 3 wDB (by decide)

/-- Claim C3: for a Failed run owned by the caller, a successful retry
returns the run reset to IN_PROGRESS with processed 0 and cleared error
message and completion timestamp, leaves no record of the run in the store
before the body re-runs, and after the re-run over the same source the run's
record set equals exactly what a single successful first-attempt run over
that source would have produced (full replace, never accumulation). -/
theorem claim_C3 (db : DB) (id uid : String) (now now2 : ℕ)
    (fp : FileProcess) (rows : List ExcelRow)
    (h1 : findFileProcess db id uid = some fp) (h2 : fp.status = .FAILED) :
    (retryProcessing db id uid now).1 = .ok (retryReset now fp) ∧
    (retryReset now fp).status = .IN_PROGRESS ∧
    (retryReset now fp).processedRows = 0 ∧
    (retryReset now fp).errorMessage = none ∧
    (retryReset now fp).completedAt = none ∧
    productsOf (retryProcessing db id uid now).2 id = [] ∧
    productsOf
        (finalState id (.ok rows) none now2 (retryProcessing db id uid now).2)
        id =
      productsOf
        (finalState id (.ok rows) none now2
          (initiateProcessing emptyDB id uid fp.fileName fp.fileUrl now).2)
        id := by
  have hr := retryProcessing_found_failed db id uid now fp h1 h2
  have hclean : productsOf (retryProcessing db id uid now).2 id = [] := by
    rw [hr]
    exact productsOf_deleteProductsOf _ _
  refine ⟨by rw [hr], rfl, rfl, rfl, rfl, hclean, ?_⟩
  rw [productsOf_finalState_ok id now2 rows _ hclean,
    productsOf_finalState_ok id now2 rows
      (initiateProcessing emptyDB id uid fp.fileName fp.fileUrl now).2 rfl]

/-- Claim C3 witness at a concrete failed run with a leftover record. -/
theorem claim_C3_witness :
    (retryProcessing wDBFailed "r1" "u1" 8).1 = .ok (retryReset 8 wRunFailed) ∧
    (retryReset 8 wRunFailed).status = .IN_PROGRESS ∧
    (retryReset 8 wRunFailed).processedRows = 0 ∧
    (retryReset 8 wRunFailed).errorMessage = none ∧
    (retryReset 8 wRunFailed).completedAt = none ∧
    productsOf (retryProcessing wDBFailed "r1" "u1" 8).2 "r1" = [] ∧
    productsOf
        (finalState "r1" (.ok [wRowOk, wRowNoStock]) none 9
          (retryProcessing wDBFailed "r1" "u1" 8).2) "r1" =
      productsOf
        (finalState "r1" (.ok [wRowOk, wRowNoStock]) none 9
          (initiateProcessing emptyDB "r1" "u1" wRunFailed.fileName
            wRunFailed.fileUrl 8).2) "r1" :=
  claim_C3 wDBFailed "r1" "u1" 8 9 wRunFailed [wRowOk, wRowNoStock]
    (by decide) (by decide)

/-- Claim C4: every error thrown during the background body — a fetch or
parse error before the loop, or a write error at any batch the loop reaches
— leaves the run FAILED with the thrown message (falling back to a fixed
non-empty text when the message is empty) and a completion timestamp, while
processedRows keeps its last committed batch checkpoint (the failure update
does not touch it); the body itself always ends in a committed final state
instead of letting the error escape. -/
theorem claim_C4 (id msg msgw : String) (now fb : ℕ) (rows : List ExcelRow)
    (db : DB)
    (h0 : ∀ f ∈ db.fileProcesses, f.id = id → f.processedRows = 0)
    (hreach : batchSize * fb < rows.length) :
    (∀ (m : String) (n : ℕ) (f : FileProcess),
        (markFailed m n f).processedRows = f.processedRows ∧
        (markFailed m n f).status = .FAILED ∧
        (markFailed m n f).completedAt = some n ∧
        (markFailed m n f).errorMessage = some (errText m) ∧
        errText m ≠ "") ∧
    (∀ f ∈ (finalState id (.error msg) none now db).fileProcesses, f.id = id →
        f.status = .FAILED ∧ f.errorMessage = some (errText msg) ∧
        f.completedAt = some now ∧ f.processedRows = 0) ∧
    (∀ f ∈ (finalState id (.ok rows) (some (fb, msgw)) now db).fileProcesses,
        f.id = id →
        f.status = .FAILED ∧ f.errorMessage = some (errText msgw) ∧
        f.completedAt = some now ∧
        f.processedRows = (rows.take (batchSize * fb)).length) ∧
    processFileInBackground id (.error msg) none now db ≠ [] ∧
    processFileInBackground id (.ok rows) (some (fb, msgw)) now db ≠ [] := by
  refine ⟨?_, ?_, finalState_ok_fail id now fb msgw rows db hreach h0, ?_, ?_⟩
  · intro m n f
    refine ⟨rfl, rfl, rfl, rfl, ?_⟩
    unfold errText
    split
    · simp
    · assumption
  · intro f hf hfid
    rw [finalState_error] at hf
    obtain ⟨f0, hf0, hf0id, rfl⟩ := mem_updateFileProcess_id hf hfid
    exact ⟨rfl, rfl, rfl, h0 f0 hf0 hf0id⟩
  · simp [processFileInBackground]
  · simp [processFileInBackground]

/-- Claim C4 witness: a parse failure and a write failure at batch 0 on a
3-row source. -/
theorem claim_C4_witness :
    (∀ (m : String) (n : ℕ) (f : FileProcess),
        (markFailed m n f).processedRows = f.processedRows ∧
        (markFailed m n f).status = .FAILED ∧
        (markFailed m n f).completedAt = some n ∧
        (markFailed m n f).errorMessage = some (errText m) ∧
        errText m ≠ "") ∧
    (∀ f ∈ (finalState "r1" (.error "fetch timed out") none 9
        wDB).fileProcesses, f.id = "r1" →
        f.status = .FAILED ∧
        f.errorMessage = some (errText "fetch timed out") ∧
        f.completedAt = some 9 ∧ f.processedRows = 0) ∧
    (∀ f ∈ (finalState "r1" (.ok [wRowOk, wRowBadPrice, wRowNoStock])
        (some (0, "db down")) 9 wDB).fileProcesses, f.id = "r1" →
        f.status = .FAILED ∧ f.errorMessage = some (errText "db down") ∧
        f.completedAt = some 9 ∧
        f.processedRows =
          ([wRowOk, wRowBadPrice, wRowNoStock].take (batchSize * 0)).length) ∧
    processFileInBackground "r1" (.error "fetch timed out") none 9 wDB ≠ [] ∧
    processFileInBackground "r1" (.ok [wRowOk, wRowBadPrice, wRowNoStock])
      (some (0, "db down")) 9 wDB ≠ [] :=
  claim_C4 "r1" "fetch timed out" "db down" 9 0
    [wRowOk, wRowBadPrice, wRowNoStock] wDB (by decide) (by decide)

/-- Claim C5: retry fails with NotFoundOrForbidden when no run with the
given id is owned by the caller, fails with InvalidState when the owned
run's status is not FAILED (Running and Completed runs are not retriable),
and in both failure cases the store is returned unchanged — no run field or
record is mutated. -/
theorem claim_C5 (db : DB) (id uid : String) (now : ℕ) :
    (findFileProcess db id uid = none →
      retryProcessing db id uid now = (.error .notFoundOrForbidden, db)) ∧
    (∀ fp, findFileProcess db id uid = some fp → fp.status ≠ .FAILED →
      retryProcessing db id uid now = (.error .invalidState, db)) :=
  ⟨retryProcessing_not_found db id uid now,
   fun fp h1 h2 => retryProcessing_wrong_state db id uid now fp h1 h2⟩

/-- Claim C5 witness: an unknown run id and a completed run. -/
theorem claim_C5_witness :
    retryProcessing wDB "zzz" "u1" 4 = (.error .notFoundOrForbidden, wDB) ∧
    retryProcessing wDBDone "r1" "u1" 4 = (.error .invalidState, wDBDone) :=
  ⟨(claim_C5 wDB "zzz" "u1" 4).1 (by decide),
   (claim_C5 wDBDone "r1" "u1" 4).2 wRunDone (by decide) (by decide)⟩

/-- Claim C6, counterexample.  The claim states that stock defaults to 0
when the cell is absent or unparsable.  On the code, an accepted row whose
stock cell is truthy but unparsable gets parseInt's NaN (not 0): the guard
is truthiness, not parsability. -/
theorem claim_C6_counterexample :
    rowAccepted wRowBadStock = true ∧
    (toProduct "r1" wRowBadStock).stock = none ∧
    ¬ ((toProduct "r1" wRowBadStock).stock = some 0) := by
  decide

/-- Claim C6, amended.  The stock cell never affects row acceptance; stock
defaults to 0 exactly when the cell is falsy (absent, the empty string, or
the number 0); when the cell is truthy it is parsed with parseInt and the
result is kept even when it is NaN (a truthy unparsable cell yields NaN
stock, not 0); a parsable truthy cell yields its parsed value. -/
theorem claim_C6_amended (pid : String) (r : ExcelRow) (v w : Option JsVal) :
    rowAccepted { r with stock := v } = rowAccepted { r with stock := w } ∧
    (toProduct pid { r with stock := none }).stock = some 0 ∧
    (toProduct pid { r with stock := some (.num 0) }).stock = some 0 ∧
    (toProduct pid { r with stock := some (.str "") }).stock = some 0 ∧
    (toProduct pid { r with stock := some (.str "7") }).stock = some 7 ∧
    (toProduct pid { r with stock := some (.num 5) }).stock = some 5 ∧
    (toProduct pid { r with stock := some (.str "abc") }).stock = none :=
  ⟨rfl, rfl, rfl, rfl, rfl, rfl, rfl⟩

/-- Claim C7: the body consumes the source in fixed batches of 100 rows in
source order — the final record set is the in-order fold of the accepted
rows' products over the prior store — and the counter value committed at
every observed state is the cumulative number of source rows consumed
through some whole number of batches, so rejected rows advance the counter
too; after a fully successful pass the counter equals the total row count. -/
theorem claim_C7 (id : String) (rows : List ExcelRow) (now : ℕ) (db : DB)
    (h0 : ∀ f ∈ db.fileProcesses, f.id = id → f.processedRows = 0) :
    batchSize = 100 ∧
    (finalState id (.ok rows) none now db).products =
      ((rows.filter rowAccepted).map (toProduct id)).foldl insertSkipDup
        db.products ∧
    (∀ f ∈ (finalState id (.ok rows) none now db).fileProcesses, f.id = id →
        f.processedRows = rows.length) ∧
    (∀ db' ∈ processFileInBackground id (.ok rows) none now db,
      ∀ f ∈ db'.fileProcesses, f.id = id →
        ∃ k, f.processedRows = (rows.take (batchSize * k)).length) := by
  refine ⟨rfl, ?_, ?_, body_checkpoints id rows none now db h0⟩
  · rw [finalState_ok_none, updateFileProcess_products]
    rfl
  · intro f hf hfid
    rw [finalState_ok_none] at hf
    obtain ⟨f0, _, _, rfl⟩ := mem_updateFileProcess_id hf hfid
    rfl

/-- Claim C7 witness at a concrete 3-row source. -/
theorem claim_C7_witness :
    batchSize = 100 ∧
    (finalState "r1" (.ok [wRowOk, wRowBadPrice, wRowNoStock])
        none 3 wDB).products =
      (([wRowOk, wRowBadPrice, wRowNoStock].filter rowAccepted).map
        (toProduct "r1")).foldl insertSkipDup wDB.products ∧
    (∀ f ∈ (finalState "r1" (.ok [wRowOk, wRowBadPrice, wRowNoStock])
        none 3 wDB).fileProcesses, f.id = "r1" →
        f.processedRows = ([wRowOk, wRowBadPrice, wRowNoStock] : List ExcelRow).length) ∧
    (∀ db' ∈ processFileInBackground "r1"
        (.ok [wRowOk, wRowBadPrice, wRowNoStock]) none 3 wDB,
      ∀ f ∈ db'.fileProcesses, f.id = "r1" →
        ∃ k, f.processedRows =
          ([wRowOk, wRowBadPrice, wRowNoStock].take (batchSize * k)).length) :=
  claim_C7 "r1" [wRowOk, wRowBadPrice, wRowNoStock] 3 wDB (by decide)

/-- Claim C8, counterexample.  The claim states that once a run is terminal,
a progress update is a no-op.  On the code, the per-batch progress update is
an unconditional write with no terminal-state guard: applied to a COMPLETED
run it changes the run's counter. -/
theorem claim_C8_counterexample :
    wRunDone.status = .COMPLETED ∧
    updateProgress wDBDone "r1" 5 ≠ wDBDone ∧
    (updateProgress wDBDone "r1" 5).fileProcesses.map
      (fun f => f.processedRows) = [5] ∧
    wDBDone.fileProcesses.map (fun f => f.processedRows) = [3] := by
  decide

/-- Claim C8, amended.  The progress update itself carries no terminal-state
guard (see the counterexample), but within one sequential execution of the
body no write is issued after the terminal transition: every non-final
committed state still has the run IN_PROGRESS, so in the program's
sequential executions no progress update ever touches a terminal run. -/
theorem claim_C8_amended (id : String) (input : FetchParse)
    (wfail : Option (ℕ × String)) (now : ℕ) (db : DB)
    (h0 : ∀ f ∈ db.fileProcesses, f.id = id → f.status = .IN_PROGRESS) :
    ∀ db' ∈ (processFileInBackground id input wfail now db).dropLast,
      ∀ f ∈ db'.fileProcesses, f.id = id → f.status = .IN_PROGRESS :=
  body_dropLast_running id input wfail now db h0

/-- Claim C8 amended witness at a concrete run. -/
theorem claim_C8_amended_witness :
    (∀ f ∈ wDB.fileProcesses, f.id = "r1" → f.status = .IN_PROGRESS) ∧
    (∀ db' ∈ (processFileInBackground "r1"
        (.ok [wRowOk, wRowBadPrice, wRowNoStock]) none 2 wDB).dropLast,
      ∀ f ∈ db'.fileProcesses, f.id = "r1" →
        f.status = .IN_PROGRESS) :=
  ⟨by decide,
   claim_C8_amended "r1" (.ok [wRowOk, wRowBadPrice, wRowNoStock]) none 2 wDB
     (by decide)⟩

/-- Claim C9: when no run with the given id belongs to the caller (the id is
unknown or the run is owned by someone else), the service's single-run read
returns nothing and its HTTP handler answers 404 'File process not found'
with no data about the run, the product listing fails with
NotFoundOrForbidden, and the run listing only ever returns the caller's own
runs; all three operations are reads and return no store. -/
theorem claim_C9 (db : DB) (id uid : String)
    (h : ∀ f ∈ db.fileProcesses, f.id = id → f.userId ≠ uid) :
    findFileProcess db id uid = none ∧
    getById db id uid = none ∧
    controllerGetById db id uid = .error (404, "File process not found") ∧
    getProducts db id uid = .error .notFoundOrForbidden ∧
    (∀ f ∈ getFileProcesses db uid, f.userId = uid) := by
  have hN := findFileProcess_eq_none db id uid h
  refine ⟨hN, ?_, ?_, ?_, ?_⟩
  · unfold getById
    rw [hN]
    rfl
  · unfold controllerGetById getById
    rw [hN]
    rfl
  · unfold getProducts
    rw [hN]
  · intro f hf
    have := List.mem_filter.mp hf
    simpa using this.2

/-- Claim C9 witness: a caller who owns nothing in the store. -/
theorem claim_C9_witness :
    findFileProcess wDB "r1" "intruder" = none ∧
    getById wDB "r1" "intruder" = none ∧
    controllerGetById wDB "r1" "intruder" =
      .error (404, "File process not found") ∧
    getProducts wDB "r1" "intruder" = .error .notFoundOrForbidden ∧
    (∀ f ∈ getFileProcesses wDB "intruder", f.userId = "intruder") :=
  claim_C9 wDB "r1" "intruder" (by decide)

/-- Claim C10: the synchronous step of an accepted retry rewrites only
status, processedRows, errorMessage, completedAt and startedAt; the run's
totalRows (still the failed attempt's value), fileName, fileUrl, owner id
and id itself are unchanged, and startedAt becomes the retry instant. -/
theorem claim_C10 (db : DB) (id uid : String) (now : ℕ) (fp : FileProcess)
    (h1 : findFileProcess db id uid = some fp) (h2 : fp.status = .FAILED) :
    (retryProcessing db id uid now).1 = .ok (retryReset now fp) ∧
    (retryProcessing db id uid now).2.fileProcesses =
      db.fileProcesses.map (fun f => if f.id == id then retryReset now f else f) ∧
    (∀ f : FileProcess,
        (retryReset now f).totalRows = f.totalRows ∧
        (retryReset now f).fileName = f.fileName ∧
        (retryReset now f).fileUrl = f.fileUrl ∧
        (retryReset now f).userId = f.userId ∧
        (retryReset now f).id = f.id ∧
        (retryReset now f).startedAt = now) := by
  have hr := retryProcessing_found_failed db id uid now fp h1 h2
  refine ⟨by rw [hr], by rw [hr]; rfl, fun f => ⟨rfl, rfl, rfl, rfl, rfl, rfl⟩⟩

/-- Claim C10 witness at the concrete failed run. -/
theorem claim_C10_witness :
    (retryProcessing wDBFailed "r1" "u1" 11).1 = .ok (retryReset 11 wRunFailed) ∧
    (retryProcessing wDBFailed "r1" "u1" 11).2.fileProcesses =
      wDBFailed.fileProcesses.map
        (fun f => if f.id == "r1" then retryReset 11 f else f) ∧
    (∀ f : FileProcess,
        (retryReset 11 f).totalRows = f.totalRows ∧
        (retryReset 11 f).fileName = f.fileName ∧
        (retryReset 11 f).fileUrl = f.fileUrl ∧
        (retryReset 11 f).userId = f.userId ∧
        (retryReset 11 f).id = f.id ∧
        (retryReset 11 f).startedAt = 11) :=
  claim_C10 wDBFailed "r1" "u1" 11 wRunFailed (by decide) (by decide)

end Ingest
